import Mathlib

/-!
Shallow embedding of `aries_cloudagent/revocation/models/revocation_registry.py`.

The Python class `RevocationRegistry` keeps metadata for one revocation
registry and manages a local copy of its "tails file": it resolves a local
cache path from the declared content hash, streams the remote artifact into
that path while computing a rolling SHA-256 digest, compares the base58
encoding of the digest with the declared `tails_hash`, and exposes a
get-or-fetch entry point that skips the download when a file is already
present at the resolved path.

External collaborators (network transport `fetch_stream`, the filesystem,
the configuration provider, `hashlib.sha256` / `base58.b58encode`) are
modelled as an explicit environment; the descriptor and the filesystem are
threaded through the operations as explicit state.  Every transport
invocation is recorded so that fetch-counting properties can be stated.
-/

/-- Error raised by the tails-file operations.  The Python code raises
`RevocationError` with three distinct messages; the spec names them
`MissingPublicLocation` ("Tails file public URI is empty"), `FetchFailure`
("Error retrieving tails file") and `HashMismatch` ("The hash of the
downloaded tails file does not match."). -/
inductive RevocationError where
  | missingPublicLocation
  | fetchFailure
  | hashMismatch
deriving DecidableEq, Repr

/-- Result of `retrieve_tails` / `get_or_fetch_local_tails_path`: the returned
local path on success, or the raised `RevocationError`. -/
inductive FetchResult where
  | ok (path : String)
  | error (e : RevocationError)
deriving DecidableEq, Repr

/-- Filesystem model: an association list from path to file contents (bytes as
naturals).  Earlier entries shadow later ones. -/
abbrev FS := List (String × List Nat)

/-- Lookup of a file's contents by path. -/
def fsLookup : FS → String → Option (List Nat)
  | [], _ => none
  | (p, c) :: rest, q => if p = q then some c else fsLookup rest q

/-- Models `open(path, "wb", ...)` followed by writing all bytes and closing:
the file is created, or an existing file at the path is truncated and
replaced. -/
def fsSet (fs : FS) (p : String) (c : List Nat) : FS := (p, c) :: fs

/-- Models `Path(p).is_file()`. -/
def fsIsFile (fs : FS) (p : String) : Bool := (fsLookup fs p).isSome

/-- Environment of external collaborators (spec section 6): `transport` models
`fetch_stream` from `utils.http` (given a URI, a chunked byte stream, or a
`FetchError` modelled as `none`); `hashFn` models
`base58.b58encode(hashlib.sha256(bytes).digest()).decode("utf-8")` applied to
a whole byte string (feeding SHA-256 chunk by chunk equals hashing the
concatenation of the chunks); `settingsPath` models the configured value of
the setting key `holder.revocation.tails_files.path`; `tempDir` models
`tempfile.gettempdir()`. -/
structure FetchEnv where
  transport : String → Option (List (List Nat))
  hashFn : List Nat → String
  settingsPath : Option String
  tempDir : String

/-- Bytes delivered by the read loop of `retrieve_tails`: chunks are consumed
in order until the list is exhausted or a chunk of length 0 appears (the
Python loop runs `while len(buf) > 0`, an empty read signalling end of
stream).  For a well-formed stream, whose chunks are all non-empty, this is
the concatenation of the chunks. -/
def streamContents : List (List Nat) → List Nat
  | [] => []
  | c :: rest => if c = [] then [] else c ++ streamContents rest

/-- Concatenation of all chunks of a stream. -/
def flattenChunks : List (List Nat) → List Nat
  | [] => []
  | c :: rest => c ++ flattenChunks rest

/-- Python truthiness of an optional string: `None` and `""` are falsy, every
other string is truthy. -/
def strTruthy : Option String → Bool
  | none => false
  | some s => s != ""

/-- POSIX path join `str(Path(d).joinpath(f))` for a relative file name `f`
(base58-encoded hashes contain no path separator). -/
def joinPath (d f : String) : String := if d = "" then f else d ++ "/" ++ f

/-- Default tails directory
`Path(gettempdir(), "indy", "revocation", "tails_files")`. -/
def defaultTailsDir (tempDir : String) : String :=
  joinPath (joinPath (joinPath tempDir "indy") "revocation") "tails_files"

/-- Nested `value` object of a revocation registry definition document, with
the fields read by `from_definition`. -/
structure RevRegDefValue where
  tailsLocation : String
  maxCredNum : Nat
  tailsHash : String
deriving DecidableEq, Repr

/-- Raw revocation registry definition document, restricted to the fields
read by `from_definition`. -/
structure RevRegDef where
  id : String
  credDefId : String
  revocDefType : String
  tag : String
  value : RevRegDefValue
deriving DecidableEq, Repr

/-- State of a `RevocationRegistry` instance: the fields set by `__init__`,
each defaulting to `None`. -/
structure RevocationRegistry where
  registry_id : Option String := none
  cred_def_id : Option String := none
  issuer_did : Option String := none
  max_creds : Option Nat := none
  reg_def_type : Option String := none
  tag : Option String := none
  tails_local_path : Option String := none
  tails_public_uri : Option String := none
  tails_hash : Option String := none
  reg_def : Option RevRegDef := none
deriving DecidableEq, Repr

/-- Character list of the literal `:3:CL:` appearing in the regular
expression `^.*?([^:]*):3:CL:.*` of `from_definition`. -/
def clMarker : List Char := [':', '3', ':', 'C', 'L', ':']

/-- Attempt to match `([^:]*):3:CL:` at the current position: the greedy
group is the maximal run of non-colon characters, which must be immediately
followed by the literal marker.  No further backtracking is possible: a
shorter group would have to be followed by the marker's leading colon, which
cannot occur inside the non-colon run. -/
def tryGroup (s : List Char) : Option (List Char) :=
  if clMarker.isPrefixOf (s.dropWhile (fun c => c != ':')) then
    some (s.takeWhile (fun c => c != ':'))
  else none

/-- Backtracking semantics of `re.match("^.*?([^:]*):3:CL:.*", s)`: the lazy
leading `.*?` advances one character at a time from the start of the string
and cannot consume a newline (an unescaped dot does not match a newline); at
each position the group-and-marker match is attempted.  The trailing `.*`
always succeeds because `re.match` does not anchor the end of the string. -/
def issuerScan : List Char → Option (List Char)
  | [] => none
  | c :: rest =>
    match tryGroup (c :: rest) with
    | some g => some g
    | none => if c = '\n' then none else issuerScan rest

/-- Extraction of `issuer_did` in `from_definition`:
`re.match(r"^.*?([^:]*):3:CL:.*", cred_def_id)`, group 1 on a match, `None`
otherwise. -/
def issuerDidOf (s : String) : Option String :=
  (issuerScan s.toList).map String.mk

/-- Model of `RevocationRegistry.from_definition(revoc_reg_def, public_def)`. -/
def from_definition (d : RevRegDef) (public_def : Bool) : RevocationRegistry :=
  { registry_id := some d.id
    cred_def_id := some d.credDefId
    issuer_did := issuerDidOf d.credDefId
    reg_def_type := some d.revocDefType
    max_creds := some d.value.maxCredNum
    tag := some d.tag
    tails_hash := some d.value.tailsHash
    reg_def := some d
    tails_public_uri := if public_def then some d.value.tailsLocation else none
    tails_local_path := if public_def then none else some d.value.tailsLocation }

/-- Model of `get_receiving_tails_local_path(context)`: return
`_tails_local_path` when truthy, otherwise the configured (or default) tails
directory joined with `_tails_hash`.  The function is pure: it reads only the
descriptor and the configuration, and never touches the filesystem. -/
def get_receiving_tails_local_path (env : FetchEnv) (reg : RevocationRegistry) : String :=
  if strTruthy reg.tails_local_path then reg.tails_local_path.getD ""
  else joinPath (env.settingsPath.getD (defaultTailsDir env.tempDir)) (reg.tails_hash.getD "")

/-- Model of `has_local_tails_file(context)`. -/
def has_local_tails_file (env : FetchEnv) (reg : RevocationRegistry) (fs : FS) : Bool :=
  fsIsFile fs (get_receiving_tails_local_path env reg)

/-- Outcome of a stateful operation: the returned value or raised error, the
descriptor state afterwards, the filesystem afterwards, and the list of URIs
passed to the transport (recorded to count network fetches). -/
structure Outcome where
  result : FetchResult
  reg : RevocationRegistry
  fs : FS
  fetched : List String
deriving DecidableEq, Repr

/-- Model of `retrieve_tails(context)`: require a truthy public URI, fetch
the stream, resolve the destination path, write the stream to the path while
hashing it, compare the base58 digest with `_tails_hash`, and on success
record the path in `_tails_local_path` and return it.  On a hash mismatch
the fully written file stays on the filesystem (the exception is raised after
the write loop, and the `with open` block only closes the handle).  Directory
creation (`mkdir(parents=True)`) is not observable in the path-to-contents
filesystem model. -/
def retrieve_tails (env : FetchEnv) (reg : RevocationRegistry) (fs : FS) : Outcome :=
  if strTruthy reg.tails_public_uri = false then
    { result := .error .missingPublicLocation, reg := reg, fs := fs, fetched := [] }
  else
    let uri := reg.tails_public_uri.getD ""
    match env.transport uri with
    | none => { result := .error .fetchFailure, reg := reg, fs := fs, fetched := [uri] }
    | some chunks =>
      let path := get_receiving_tails_local_path env reg
      let bytes := streamContents chunks
      let fs2 := fsSet fs path bytes
      if some (env.hashFn bytes) != reg.tails_hash then
        { result := .error .hashMismatch, reg := reg, fs := fs2, fetched := [uri] }
      else
        { result := .ok path
          reg := { reg with tails_local_path := some path }
          fs := fs2
          fetched := [uri] }

/-- Model of `get_or_fetch_local_tails_path(context)`: return the resolved
path immediately when a file is already present there, otherwise delegate to
`retrieve_tails`. -/
def get_or_fetch_local_tails_path (env : FetchEnv) (reg : RevocationRegistry) (fs : FS) :
    Outcome :=
  let path := get_receiving_tails_local_path env reg
  if fsIsFile fs path then { result := .ok path, reg := reg, fs := fs, fetched := [] }
  else retrieve_tails env reg fs

/-! ## Concrete environments, descriptors and documents for witnesses and
counterexamples -/

/-- Environment with a transport serving one URI, a digest function mapping
the served bytes to "GOODHASH", and a configured cache directory. -/
def wEnv : FetchEnv :=
  { transport := fun u => if u = "http://tails.example/f" then some [[1, 2], [3]] else none
    hashFn := fun b => if b = [1, 2, 3] then "GOODHASH" else "OTHERHASH"
    settingsPath := some "/cache"
    tempDir := "/tmp" }

/-- Descriptor whose declared hash matches the served stream. -/
def wRegGood : RevocationRegistry :=
  { tails_public_uri := some "http://tails.example/f", tails_hash := some "GOODHASH" }

/-- Descriptor whose declared hash differs from the served stream's digest. -/
def wRegBad : RevocationRegistry :=
  { tails_public_uri := some "http://tails.example/f", tails_hash := some "EXPECTED" }

/-- Descriptor with no public URI. -/
def wRegNoUri : RevocationRegistry := { tails_hash := some "GOODHASH" }

/-- Descriptor with an explicit non-empty local path. -/
def wRegLocal : RevocationRegistry :=
  { tails_local_path := some "/local/tails", tails_hash := some "GOODHASH" }

/-- Filesystem already holding the cached tails file. -/
def wFS : FS := [("/cache/GOODHASH", [1, 2, 3])]

/-- Environment whose transport serves every URI with a stream hashing to
"GOODHASH". -/
def ceEnv1 : FetchEnv :=
  { transport := fun _ => some [[1, 2, 3]]
    hashFn := fun _ => "GOODHASH"
    settingsPath := some "/cache"
    tempDir := "/tmp" }

/-- Descriptor whose tails_public_uri is set, but to the empty string. -/
def ceReg1 : RevocationRegistry :=
  { tails_public_uri := some "", tails_hash := some "GOODHASH" }

/-- Descriptor with a declared hash but no public URI and no local file. -/
def ceReg3 : RevocationRegistry := { tails_hash := some "NOFILE" }

/-- Descriptor whose tails_local_path is set, but to the empty string. -/
def ceReg4 : RevocationRegistry := { tails_local_path := some "", tails_hash := some "h" }

/-- Filesystem with a stale file already present at the resolved cache path
of wRegGood. -/
def ceFS6 : FS := [("/cache/GOODHASH", [9, 9])]

/-- Definition document with a credential definition id in the canonical
did:3:CL:seqNo:tag shape. -/
def wDef : RevRegDef :=
  { id := "regid"
    credDefId := "V4SG:3:CL:17:tag"
    revocDefType := "CL_ACCUM"
    tag := "tag1"
    value := { tailsLocation := "http://tails.example/f", maxCredNum := 5,
               tailsHash := "GOODHASH" } }

/-! ## Helper lemmas -/

theorem strTruthy_some_true {s : String} (h : s ≠ "") : strTruthy (some s) = true := by
  simp [strTruthy, h]

theorem fsLookup_fsSet_self (fs : FS) (p : String) (c : List Nat) :
    fsLookup (fsSet fs p c) p = some c := by
  simp [fsSet, fsLookup]

theorem fsIsFile_fsSet_self (fs : FS) (p : String) (c : List Nat) :
    fsIsFile (fsSet fs p c) p = true := by
  simp [fsIsFile, fsLookup_fsSet_self]

theorem streamContents_eq_flatten :
    ∀ chunks : List (List Nat), (∀ c ∈ chunks, c ≠ []) →
      streamContents chunks = flattenChunks chunks := by
  intro chunks
  induction chunks with
  | nil => intro _; rfl
  | cons c rest ih =>
    intro h
    have hc : c ≠ [] := h c (List.mem_cons_self _ _)
    have hr : streamContents rest = flattenChunks rest :=
      ih (fun x hx => h x (List.mem_cons_of_mem _ hx))
    simp [streamContents, flattenChunks, hc, hr]

theorem receiving_truthy_eq (env : FetchEnv) (reg : RevocationRegistry) (q : String)
    (hq : reg.tails_local_path = some q) (hqne : q ≠ "") :
    get_receiving_tails_local_path env reg = q := by
  simp [get_receiving_tails_local_path, hq, strTruthy_some_true hqne]

theorem receiving_falsy_eq (env : FetchEnv) (reg : RevocationRegistry)
    (h : strTruthy reg.tails_local_path = false) :
    get_receiving_tails_local_path env reg =
      joinPath (env.settingsPath.getD (defaultTailsDir env.tempDir)) (reg.tails_hash.getD "") := by
  simp [get_receiving_tails_local_path, h]

theorem receiving_path_update_stable (env : FetchEnv) (reg : RevocationRegistry) :
    get_receiving_tails_local_path env
        { reg with tails_local_path := some (get_receiving_tails_local_path env reg) } =
      get_receiving_tails_local_path env reg := by
  set v := get_receiving_tails_local_path env reg with hv
  by_cases hempty : v = ""
  · have hfalsy : strTruthy reg.tails_local_path = false := by
      cases hq : reg.tails_local_path with
      | none => rfl
      | some q =>
        by_cases hq0 : q = ""
        · simp [strTruthy, hq0]
        · exfalso
          have hgq : v = q := by rw [hv]; exact receiving_truthy_eq env reg q hq hq0
          exact hq0 (hgq ▸ hempty)
    have h1 : strTruthy
        ({ reg with tails_local_path := some v } : RevocationRegistry).tails_local_path
          = false := by
      simp [strTruthy, hempty]
    have h2 := receiving_falsy_eq env { reg with tails_local_path := some v } h1
    rw [h2]
    show joinPath (env.settingsPath.getD (defaultTailsDir env.tempDir)) (reg.tails_hash.getD "") = v
    rw [hv]
    exact (receiving_falsy_eq env reg hfalsy).symm
  · exact receiving_truthy_eq env { reg with tails_local_path := some v } v rfl hempty

theorem retrieve_tails_noUri (env : FetchEnv) (reg : RevocationRegistry) (fs : FS)
    (h : strTruthy reg.tails_public_uri = false) :
    retrieve_tails env reg fs =
      { result := .error .missingPublicLocation, reg := reg, fs := fs, fetched := [] } := by
  simp [retrieve_tails, h]

theorem retrieve_tails_fetchFailure (env : FetchEnv) (reg : RevocationRegistry) (fs : FS)
    (u : String) (huri : reg.tails_public_uri = some u) (hu : u ≠ "")
    (htr : env.transport u = none) :
    retrieve_tails env reg fs =
      { result := .error .fetchFailure, reg := reg, fs := fs, fetched := [u] } := by
  simp [retrieve_tails, huri, strTruthy_some_true hu, htr]

theorem retrieve_tails_success_eq (env : FetchEnv) (reg : RevocationRegistry) (fs : FS)
    (u : String) (chunks : List (List Nat))
    (huri : reg.tails_public_uri = some u) (hu : u ≠ "")
    (htr : env.transport u = some chunks)
    (hh : reg.tails_hash = some (env.hashFn (streamContents chunks))) :
    retrieve_tails env reg fs =
      { result := .ok (get_receiving_tails_local_path env reg)
        reg := { reg with tails_local_path := some (get_receiving_tails_local_path env reg) }
        fs := fsSet fs (get_receiving_tails_local_path env reg) (streamContents chunks)
        fetched := [u] } := by
  simp [retrieve_tails, huri, strTruthy_some_true hu, htr, hh]

theorem retrieve_tails_mismatch_eq (env : FetchEnv) (reg : RevocationRegistry) (fs : FS)
    (u : String) (chunks : List (List Nat))
    (huri : reg.tails_public_uri = some u) (hu : u ≠ "")
    (htr : env.transport u = some chunks)
    (hh : reg.tails_hash ≠ some (env.hashFn (streamContents chunks))) :
    retrieve_tails env reg fs =
      { result := .error .hashMismatch
        reg := reg
        fs := fsSet fs (get_receiving_tails_local_path env reg) (streamContents chunks)
        fetched := [u] } := by
  have hbne : (some (env.hashFn (streamContents chunks)) != reg.tails_hash) = true := by
    simpa [bne_iff_ne] using Ne.symm hh
  simp [retrieve_tails, huri, strTruthy_some_true hu, htr, hbne]

theorem retrieve_tails_error_reg (env : FetchEnv) (reg : RevocationRegistry) (fs : FS)
    (e : RevocationError) (h : (retrieve_tails env reg fs).result = .error e) :
    (retrieve_tails env reg fs).reg = reg := by
  cases htp : strTruthy reg.tails_public_uri with
  | false => rw [retrieve_tails_noUri env reg fs htp]
  | true =>
    cases huri : reg.tails_public_uri with
    | none => rw [huri] at htp; simp [strTruthy] at htp
    | some u =>
      have hu : u ≠ "" := by
        rw [huri] at htp; simpa [strTruthy] using htp
      cases htr : env.transport u with
      | none => rw [retrieve_tails_fetchFailure env reg fs u huri hu htr]
      | some chunks =>
        by_cases hh : reg.tails_hash = some (env.hashFn (streamContents chunks))
        · rw [retrieve_tails_success_eq env reg fs u chunks huri hu htr hh] at h
          simp at h
        · rw [retrieve_tails_mismatch_eq env reg fs u chunks huri hu htr hh]

theorem get_or_fetch_file_absent (env : FetchEnv) (reg : RevocationRegistry) (fs : FS)
    (h : fsIsFile fs (get_receiving_tails_local_path env reg) = false) :
    get_or_fetch_local_tails_path env reg fs = retrieve_tails env reg fs := by
  simp [get_or_fetch_local_tails_path, h]

theorem get_or_fetch_file_present (env : FetchEnv) (reg : RevocationRegistry) (fs : FS)
    (h : fsIsFile fs (get_receiving_tails_local_path env reg) = true) :
    get_or_fetch_local_tails_path env reg fs =
      { result := .ok (get_receiving_tails_local_path env reg)
        reg := reg
        fs := fs
        fetched := [] } := by
  simp [get_or_fetch_local_tails_path, h]

theorem get_or_fetch_error_reg (env : FetchEnv) (reg : RevocationRegistry) (fs : FS)
    (e : RevocationError)
    (h : (get_or_fetch_local_tails_path env reg fs).result = .error e) :
    (get_or_fetch_local_tails_path env reg fs).reg = reg := by
  cases hf : fsIsFile fs (get_receiving_tails_local_path env reg) with
  | true => rw [get_or_fetch_file_present env reg fs hf] at h; simp at h
  | false =>
    rw [get_or_fetch_file_absent env reg fs hf] at h ⊢
    exact retrieve_tails_error_reg env reg fs e h

theorem takeWhile_colonfree (g t : List Char) (hg : ∀ c ∈ g, c ≠ ':') :
    (g ++ ':' :: t).takeWhile (fun c => c != ':') = g := by
  induction g with
  | nil => simp [List.takeWhile_cons]
  | cons a as ih =>
    have ha : a ≠ ':' := hg a (List.mem_cons_self _ _)
    simp [List.takeWhile_cons, ha, ih (fun c hc => hg c (List.mem_cons_of_mem _ hc))]

theorem dropWhile_colonfree (g t : List Char) (hg : ∀ c ∈ g, c ≠ ':') :
    (g ++ ':' :: t).dropWhile (fun c => c != ':') = ':' :: t := by
  induction g with
  | nil => simp [List.dropWhile_cons]
  | cons a as ih =>
    have ha : a ≠ ':' := hg a (List.mem_cons_self _ _)
    simp [List.dropWhile_cons, ha, ih (fun c hc => hg c (List.mem_cons_of_mem _ hc))]

theorem tryGroup_some (s g : List Char) (h : tryGroup s = some g) :
    (∀ c ∈ g, c ≠ ':') ∧ ∃ post, s = g ++ clMarker ++ post := by
  unfold tryGroup at h
  split at h
  · rename_i hpre
    have hg : g = s.takeWhile (fun c => c != ':') := by
      injection h with h'
      exact h'.symm
    constructor
    · intro c hc
      rw [hg] at hc
      have hp := List.mem_takeWhile_imp hc
      simpa using hp
    · obtain ⟨post, hpost⟩ := List.isPrefixOf_iff_prefix.mp hpre
      refine ⟨post, ?_⟩
      have hs : s.takeWhile (fun c => c != ':') ++ (clMarker ++ post) = s := by
        rw [hpost]
        exact List.takeWhile_append_dropWhile _ _
      rw [hg, List.append_assoc, hs]
  · exact absurd h (by simp)

theorem issuerScan_some :
    ∀ s g : List Char, issuerScan s = some g →
      (∀ c ∈ g, c ≠ ':') ∧
      ∃ pre post, s = pre ++ g ++ clMarker ++ post ∧
        (pre = [] ∨ ∃ pre2, pre = pre2 ++ [':']) := by
  intro s
  induction s with
  | nil => intro g h; simp [issuerScan] at h
  | cons c rest ih =>
    intro g h
    unfold issuerScan at h
    cases htry : tryGroup (c :: rest) with
    | some g2 =>
      rw [htry] at h
      have h2 : some g2 = some g := h
      have hg2 : g2 = g := by injection h2
      subst hg2
      obtain ⟨hcf, post, hdec⟩ := tryGroup_some (c :: rest) g2 htry
      exact ⟨hcf, [], post, by simpa using hdec, Or.inl rfl⟩
    | none =>
      rw [htry] at h
      have h2 : (if c = '\n' then none else issuerScan rest) = some g := h
      by_cases hnl : c = '\n'
      · rw [if_pos hnl] at h2; exact absurd h2 (by simp)
      · rw [if_neg hnl] at h2
        obtain ⟨hcf, pre, post, hdec, hpre⟩ := ih g h2
        refine ⟨hcf, c :: pre, post, by simp [hdec], ?_⟩
        cases hpre with
        | inl hnil =>
          subst hnil
          by_cases hc : c = ':'
          · exact Or.inr ⟨[], by simp [hc]⟩
          · exfalso
            simp only [List.nil_append] at hdec
            have hcb : (c != ':') = true := by simp [hc]
            have hsplit : g ++ clMarker ++ post
                = g ++ ':' :: (['3', ':', 'C', 'L', ':'] ++ post) := by
              simp [clMarker]
            have hdw : (c :: rest).dropWhile (fun x => x != ':') = clMarker ++ post := by
              rw [List.dropWhile_cons]
              simp only [hcb, if_true]
              rw [hdec, hsplit, dropWhile_colonfree g _ hcf]
              simp [clMarker]
            have hne : tryGroup (c :: rest) ≠ none := by
              unfold tryGroup
              rw [hdw]
              have hp : clMarker.isPrefixOf (clMarker ++ post) = true :=
                List.isPrefixOf_iff_prefix.mpr (List.prefix_append _ _)
              simp [hp]
            exact hne htry
        | inr hx =>
          obtain ⟨pre2, hpre2⟩ := hx
          exact Or.inr ⟨c :: pre2, by simp [hpre2]⟩

/-! ## Claim theorems -/

/-- C7: for every definition document, construction with the public flag true
yields a descriptor whose tails_public_uri equals the document's
tailsLocation and whose tails_local_path is unset; with the flag false the
reverse holds — so at construction exactly one of tails_local_path /
tails_public_uri is populated. -/
theorem from_definition_uri_xor_path (d : RevRegDef) :
    ((from_definition d true).tails_public_uri = some d.value.tailsLocation ∧
      (from_definition d true).tails_local_path = none) ∧
    ((from_definition d false).tails_local_path = some d.value.tailsLocation ∧
      (from_definition d false).tails_public_uri = none) ∧
    (∀ b : Bool,
      (from_definition d b).tails_local_path.isSome
        = !(from_definition d b).tails_public_uri.isSome) := by
  refine ⟨⟨rfl, rfl⟩, ⟨rfl, rfl⟩, ?_⟩
  intro b
  cases b <;> rfl

/-- C9: for every descriptor whose tails_public_uri is not set, retrieve_tails
fails with MissingPublicLocation, leaving the descriptor and the filesystem
unchanged and invoking the transport on no URI at all. -/
theorem retrieve_missing_public_location (env : FetchEnv) (reg : RevocationRegistry)
    (fs : FS) (h : reg.tails_public_uri = none) :
    retrieve_tails env reg fs =
      { result := .error .missingPublicLocation, reg := reg, fs := fs, fetched := [] } := by
  apply retrieve_tails_noUri
  rw [h]
  rfl

/-- Witness for C9: a concrete descriptor with no public URI. -/
theorem retrieve_missing_public_location_witness :
    retrieve_tails wEnv wRegNoUri [] =
      { result := .error .missingPublicLocation, reg := wRegNoUri, fs := [], fetched := [] } :=
  retrieve_missing_public_location wEnv wRegNoUri [] rfl

/-- C10: on a cache hit — a file already exists at the resolved path —
get_or_fetch_local_tails_path returns the resolved path and leaves the
descriptor (every field, in particular tails_local_path) and the filesystem
unchanged, invoking the transport on no URI; tails_local_path is thus not
populated by a cache hit. -/
theorem get_or_fetch_cache_hit_frame (env : FetchEnv) (reg : RevocationRegistry) (fs : FS)
    (h : fsIsFile fs (get_receiving_tails_local_path env reg) = true) :
    get_or_fetch_local_tails_path env reg fs =
      { result := .ok (get_receiving_tails_local_path env reg)
        reg := reg
        fs := fs
        fetched := [] } :=
  get_or_fetch_file_present env reg fs h

/-- Witness for C10: a cache hit on a descriptor whose tails_local_path is
unset leaves it unset. -/
theorem get_or_fetch_cache_hit_frame_witness :
    get_or_fetch_local_tails_path wEnv wRegNoUri wFS =
      { result := .ok (get_receiving_tails_local_path wEnv wRegNoUri)
        reg := wRegNoUri
        fs := wFS
        fetched := [] } :=
  get_or_fetch_cache_hit_frame wEnv wRegNoUri wFS (by decide)

/-- C4 counterexample: a descriptor whose tails_local_path is set — to the
empty string — for which get_receiving_tails_local_path does not return that
set path unchanged but falls through to the configured directory joined with
the hash (Python truthiness treats "" like None). -/
theorem receiving_path_empty_string_counterexample :
    ceReg4.tails_local_path = some "" ∧
    get_receiving_tails_local_path wEnv ceReg4 = "/cache/h" ∧
    get_receiving_tails_local_path wEnv ceReg4 ≠ "" := by decide

/-- C4 (amended: a tails_local_path set to a non-empty string is returned
unchanged; one set to the empty string is falsy in Python and ignored like an
unset value): get_receiving_tails_local_path is a pure deterministic
function; with a non-empty tails_local_path it returns it unchanged for
every environment and every tails_hash; otherwise it returns the configured
base directory — defaulting to <system temp>/indy/revocation/tails_files —
joined with tails_hash.  It takes no filesystem at all. -/
theorem receiving_path_resolution (env : FetchEnv) (reg : RevocationRegistry) (p : String) :
    (reg.tails_local_path = some p → p ≠ "" →
      get_receiving_tails_local_path env reg = p) ∧
    (reg.tails_local_path = some p → p ≠ "" →
      ∀ (env2 : FetchEnv) (h2 : Option String),
        get_receiving_tails_local_path env2 { reg with tails_hash := h2 } = p) ∧
    (strTruthy reg.tails_local_path = false →
      get_receiving_tails_local_path env reg =
        joinPath (env.settingsPath.getD (defaultTailsDir env.tempDir))
          (reg.tails_hash.getD "")) := by
  refine ⟨fun hq hp => receiving_truthy_eq env reg p hq hp,
          fun hq hp env2 h2 => ?_,
          fun hf => receiving_falsy_eq env reg hf⟩
  exact receiving_truthy_eq env2 { reg with tails_hash := h2 } p hq hp

/-- Witness for C4: the set non-empty path wins; an unset path resolves to
the configured directory joined with the hash. -/
theorem receiving_path_resolution_witness :
    get_receiving_tails_local_path wEnv wRegLocal = "/local/tails" ∧
    get_receiving_tails_local_path wEnv wRegNoUri
      = joinPath (wEnv.settingsPath.getD (defaultTailsDir wEnv.tempDir))
          (wRegNoUri.tails_hash.getD "") :=
  ⟨(receiving_path_resolution wEnv wRegLocal "/local/tails").1 rfl (by decide),
   (receiving_path_resolution wEnv wRegNoUri "x").2.2 (by decide)⟩

/-- C1 counterexample: a descriptor whose tails_public_uri is set — to the
empty string — and a transport stream whose digest equals the declared
tails_hash, for which retrieve_tails raises MissingPublicLocation instead of
succeeding: no file is written and tails_local_path stays unset (Python
truthiness treats "" like None). -/
theorem retrieve_roundtrip_counterexample :
    ceReg1.tails_public_uri.isSome = true ∧
    ceEnv1.hashFn (flattenChunks [[1, 2, 3]]) = "GOODHASH" ∧
    ceReg1.tails_hash = some "GOODHASH" ∧
    (retrieve_tails ceEnv1 ceReg1 []).result = .error .missingPublicLocation ∧
    (retrieve_tails ceEnv1 ceReg1 []).reg.tails_local_path = none ∧
    (retrieve_tails ceEnv1 ceReg1 []).fs = [] := by decide

/-- C1 (amended: tails_public_uri set to a non-empty string; the code treats
an empty string like an absent URI): for every such descriptor and every
stream of non-empty chunks whose concatenated bytes have a base58-encoded
SHA-256 digest equal to the declared tails_hash, retrieve_tails writes a file
at the resolved destination path byte-identical to the source stream, updates
the descriptor's tails_local_path to that destination path, and returns that
path as success. -/
theorem retrieve_roundtrip_nonempty_uri (env : FetchEnv) (reg : RevocationRegistry)
    (fs : FS) (u : String) (chunks : List (List Nat))
    (huri : reg.tails_public_uri = some u) (hu : u ≠ "")
    (htr : env.transport u = some chunks)
    (hwf : ∀ c ∈ chunks, c ≠ [])
    (hh : reg.tails_hash = some (env.hashFn (flattenChunks chunks))) :
    (retrieve_tails env reg fs).result = .ok (get_receiving_tails_local_path env reg) ∧
    fsLookup (retrieve_tails env reg fs).fs (get_receiving_tails_local_path env reg)
      = some (flattenChunks chunks) ∧
    (retrieve_tails env reg fs).reg
      = { reg with tails_local_path := some (get_receiving_tails_local_path env reg) } := by
  have hsc : streamContents chunks = flattenChunks chunks :=
    streamContents_eq_flatten chunks hwf
  have hh2 : reg.tails_hash = some (env.hashFn (streamContents chunks)) := by
    rw [hsc]; exact hh
  rw [retrieve_tails_success_eq env reg fs u chunks huri hu htr hh2]
  refine ⟨rfl, ?_, rfl⟩
  rw [hsc]
  exact fsLookup_fsSet_self _ _ _

/-- Witness for C1: the concrete good descriptor round-trips. -/
theorem retrieve_roundtrip_nonempty_uri_witness :
    (retrieve_tails wEnv wRegGood []).result
        = .ok (get_receiving_tails_local_path wEnv wRegGood) ∧
    fsLookup (retrieve_tails wEnv wRegGood []).fs
        (get_receiving_tails_local_path wEnv wRegGood)
      = some (flattenChunks [[1, 2], [3]]) ∧
    (retrieve_tails wEnv wRegGood []).reg
      = { wRegGood with
          tails_local_path := some (get_receiving_tails_local_path wEnv wRegGood) } :=
  retrieve_roundtrip_nonempty_uri wEnv wRegGood [] "http://tails.example/f" [[1, 2], [3]]
    rfl (by decide) (by decide) (by decide) (by decide)

/-- C2: a fetched stream of non-empty chunks whose concatenated bytes have a
base58-encoded SHA-256 digest different from the declared tails_hash makes
retrieve_tails fail with HashMismatch and leaves tails_local_path unchanged;
moreover every failed retrieve_tails and every failed
get_or_fetch_local_tails_path leaves tails_local_path unchanged (in
particular unset when it was unset before the call). -/
theorem retrieve_hash_mismatch_preserves_local_path (env : FetchEnv)
    (reg : RevocationRegistry) (fs : FS) (u : String) (chunks : List (List Nat)) :
    (reg.tails_public_uri = some u → u ≠ "" → env.transport u = some chunks →
      (∀ c ∈ chunks, c ≠ []) →
      reg.tails_hash ≠ some (env.hashFn (flattenChunks chunks)) →
      (retrieve_tails env reg fs).result = .error .hashMismatch ∧
      (retrieve_tails env reg fs).reg.tails_local_path = reg.tails_local_path) ∧
    (∀ e, (retrieve_tails env reg fs).result = .error e →
      (retrieve_tails env reg fs).reg.tails_local_path = reg.tails_local_path) ∧
    (∀ e, (get_or_fetch_local_tails_path env reg fs).result = .error e →
      (get_or_fetch_local_tails_path env reg fs).reg.tails_local_path
        = reg.tails_local_path) := by
  refine ⟨?_, ?_, ?_⟩
  · intro huri hu htr hwf hh
    have hsc := streamContents_eq_flatten chunks hwf
    have hh2 : reg.tails_hash ≠ some (env.hashFn (streamContents chunks)) := by
      rw [hsc]; exact hh
    rw [retrieve_tails_mismatch_eq env reg fs u chunks huri hu htr hh2]
    exact ⟨rfl, rfl⟩
  · intro e he
    rw [retrieve_tails_error_reg env reg fs e he]
  · intro e he
    rw [get_or_fetch_error_reg env reg fs e he]

/-- Witness for C2: the concrete mismatching descriptor fails with
HashMismatch and keeps its unset tails_local_path. -/
theorem retrieve_hash_mismatch_preserves_local_path_witness :
    (retrieve_tails wEnv wRegBad []).result = .error .hashMismatch ∧
    (retrieve_tails wEnv wRegBad []).reg.tails_local_path = wRegBad.tails_local_path :=
  (retrieve_hash_mismatch_preserves_local_path wEnv wRegBad []
    "http://tails.example/f" [[1, 2], [3]]).1 rfl (by decide) (by decide) (by decide)
    (by decide)

/-- C5: after a retrieve_tails that fails with HashMismatch, the fully
written file remains on the filesystem at the resolved destination path (not
deleted), the descriptor is unchanged, and a subsequent
get_or_fetch_local_tails_path on the same descriptor returns that path by
presence alone without invoking the transport — even though the file's
contents do not match tails_hash. -/
theorem hash_mismatch_file_remains (env : FetchEnv) (reg : RevocationRegistry)
    (fs : FS) (u : String) (chunks : List (List Nat))
    (huri : reg.tails_public_uri = some u) (hu : u ≠ "")
    (htr : env.transport u = some chunks)
    (hwf : ∀ c ∈ chunks, c ≠ [])
    (hh : reg.tails_hash ≠ some (env.hashFn (flattenChunks chunks))) :
    (retrieve_tails env reg fs).result = .error .hashMismatch ∧
    (retrieve_tails env reg fs).reg = reg ∧
    fsLookup (retrieve_tails env reg fs).fs (get_receiving_tails_local_path env reg)
      = some (flattenChunks chunks) ∧
    get_or_fetch_local_tails_path env (retrieve_tails env reg fs).reg
        (retrieve_tails env reg fs).fs
      = { result := .ok (get_receiving_tails_local_path env reg)
          reg := reg
          fs := (retrieve_tails env reg fs).fs
          fetched := [] } := by
  have hsc := streamContents_eq_flatten chunks hwf
  have hh2 : reg.tails_hash ≠ some (env.hashFn (streamContents chunks)) := by
    rw [hsc]; exact hh
  rw [retrieve_tails_mismatch_eq env reg fs u chunks huri hu htr hh2]
  refine ⟨rfl, rfl, ?_, ?_⟩
  · rw [hsc]
    exact fsLookup_fsSet_self _ _ _
  · exact get_or_fetch_file_present env reg _ (fsIsFile_fsSet_self _ _ _)

/-- Witness for C5: the concrete mismatching fetch leaves the file in place
and the follow-up get_or_fetch trusts it by presence. -/
theorem hash_mismatch_file_remains_witness :
    (retrieve_tails wEnv wRegBad []).result = .error .hashMismatch ∧
    (retrieve_tails wEnv wRegBad []).reg = wRegBad ∧
    fsLookup (retrieve_tails wEnv wRegBad []).fs
        (get_receiving_tails_local_path wEnv wRegBad)
      = some (flattenChunks [[1, 2], [3]]) ∧
    get_or_fetch_local_tails_path wEnv (retrieve_tails wEnv wRegBad []).reg
        (retrieve_tails wEnv wRegBad []).fs
      = { result := .ok (get_receiving_tails_local_path wEnv wRegBad)
          reg := wRegBad
          fs := (retrieve_tails wEnv wRegBad []).fs
          fetched := [] } :=
  hash_mismatch_file_remains wEnv wRegBad [] "http://tails.example/f" [[1, 2], [3]]
    rfl (by decide) (by decide) (by decide) (by decide)

/-- C6 counterexample: a destination path already holding an existing file,
for which retrieve_tails does not fail at the open step but succeeds,
silently replacing the old contents [9, 9] with the streamed bytes
[1, 2, 3] — the destination open is truncating, not exclusive. -/
theorem retrieve_overwrites_existing_counterexample :
    fsIsFile ceFS6 (get_receiving_tails_local_path wEnv wRegGood) = true ∧
    (retrieve_tails wEnv wRegGood ceFS6).result = .ok "/cache/GOODHASH" ∧
    fsLookup ceFS6 "/cache/GOODHASH" = some [9, 9] ∧
    fsLookup (retrieve_tails wEnv wRegGood ceFS6).fs "/cache/GOODHASH"
      = some [1, 2, 3] := by decide

/-- C6 (amended: the destination is opened for writing with truncation, mode
"wb", not exclusively): when a file already exists at the resolved
destination path, the open step of retrieve_tails does not fail; the existing
contents are replaced by the streamed bytes and the outcome is decided solely
by the hash comparison — success or HashMismatch. -/
theorem retrieve_truncating_write (env : FetchEnv) (reg : RevocationRegistry)
    (fs : FS) (u : String) (chunks : List (List Nat)) (old : List Nat)
    (huri : reg.tails_public_uri = some u) (hu : u ≠ "")
    (htr : env.transport u = some chunks)
    (_h_old : fsLookup fs (get_receiving_tails_local_path env reg) = some old) :
    fsLookup (retrieve_tails env reg fs).fs (get_receiving_tails_local_path env reg)
      = some (streamContents chunks) ∧
    ((retrieve_tails env reg fs).result = .ok (get_receiving_tails_local_path env reg) ∨
      (retrieve_tails env reg fs).result = .error .hashMismatch) := by
  by_cases hh : reg.tails_hash = some (env.hashFn (streamContents chunks))
  · rw [retrieve_tails_success_eq env reg fs u chunks huri hu htr hh]
    exact ⟨fsLookup_fsSet_self _ _ _, Or.inl rfl⟩
  · rw [retrieve_tails_mismatch_eq env reg fs u chunks huri hu htr hh]
    exact ⟨fsLookup_fsSet_self _ _ _, Or.inr rfl⟩

/-- Witness for C6: retrieving over the concrete stale file replaces its
contents. -/
theorem retrieve_truncating_write_witness :
    fsLookup (retrieve_tails wEnv wRegGood ceFS6).fs
        (get_receiving_tails_local_path wEnv wRegGood)
      = some (streamContents [[1, 2], [3]]) ∧
    ((retrieve_tails wEnv wRegGood ceFS6).result
        = .ok (get_receiving_tails_local_path wEnv wRegGood) ∨
      (retrieve_tails wEnv wRegGood ceFS6).result = .error .hashMismatch) :=
  retrieve_truncating_write wEnv wRegGood ceFS6 "http://tails.example/f" [[1, 2], [3]]
    [9, 9] rfl (by decide) (by decide) (by decide)

/-- C8: from_definition extracts issuer_did by matching credDefId against the
pattern <issuer_did>:3:CL:... — on a match the extracted value is a colon-free
component immediately preceding the literal marker ":3:CL:" (what precedes
the component is empty or ends with a colon); when credDefId admits no such
decomposition the pattern cannot match, issuer_did is absent, and
construction still succeeds (from_definition is total and raises no error). -/
theorem from_definition_issuer_did_extraction (d : RevRegDef) (b : Bool) :
    (∀ g : String, (from_definition d b).issuer_did = some g →
      (∀ c ∈ g.toList, c ≠ ':') ∧
      ∃ pre post, d.credDefId.toList = pre ++ g.toList ++ clMarker ++ post ∧
        (pre = [] ∨ ∃ pre2, pre = pre2 ++ [':'])) ∧
    ((¬ ∃ g pre post : List Char,
        d.credDefId.toList = pre ++ g ++ clMarker ++ post ∧ ∀ c ∈ g, c ≠ ':') →
      (from_definition d b).issuer_did = none) := by
  have hfield : (from_definition d b).issuer_did = issuerDidOf d.credDefId := rfl
  constructor
  · intro g hg
    rw [hfield] at hg
    unfold issuerDidOf at hg
    cases hscan : issuerScan d.credDefId.toList with
    | none => rw [hscan] at hg; simp at hg
    | some l =>
      rw [hscan] at hg
      simp only [Option.map_some', Option.some.injEq] at hg
      obtain ⟨hcf, pre, post, hdec, hpre⟩ := issuerScan_some _ l hscan
      have hgl : g.toList = l := by rw [← hg]; rfl
      refine ⟨?_, pre, post, ?_, hpre⟩
      · rw [hgl]; exact hcf
      · rw [hgl]; exact hdec
  · intro hne
    cases hscan : issuerScan d.credDefId.toList with
    | none =>
      rw [hfield]
      unfold issuerDidOf
      rw [hscan]
      rfl
    | some l =>
      exfalso
      obtain ⟨hcf, pre, post, hdec, _⟩ := issuerScan_some _ l hscan
      exact hne ⟨l, pre, post, hdec, hcf⟩

/-- Witness for C8: the canonical credDefId "V4SG:3:CL:17:tag" yields issuer
DID "V4SG", a colon-free component immediately preceding ":3:CL:". -/
theorem from_definition_issuer_did_extraction_witness :
    (from_definition wDef true).issuer_did = some "V4SG" ∧
    ((∀ c ∈ ("V4SG" : String).toList, c ≠ ':') ∧
      ∃ pre post, wDef.credDefId.toList
          = pre ++ ("V4SG" : String).toList ++ clMarker ++ post ∧
        (pre = [] ∨ ∃ pre2, pre = pre2 ++ [':'])) :=
  ⟨by decide, (from_definition_issuer_did_extraction wDef true).1 "V4SG" (by decide)⟩

/-- C3 counterexample: a descriptor with no pre-existing file at the resolved
path and no public URI: two successive get_or_fetch_local_tails_path calls
invoke the transport zero times — not exactly once — and the second call
fails with MissingPublicLocation instead of returning a cached path. -/
theorem get_or_fetch_twice_counterexample :
    fsIsFile [] (get_receiving_tails_local_path wEnv ceReg3) = false ∧
    (get_or_fetch_local_tails_path wEnv ceReg3 []).fetched = [] ∧
    (get_or_fetch_local_tails_path wEnv
        (get_or_fetch_local_tails_path wEnv ceReg3 []).reg
        (get_or_fetch_local_tails_path wEnv ceReg3 []).fs).fetched = [] ∧
    (get_or_fetch_local_tails_path wEnv
        (get_or_fetch_local_tails_path wEnv ceReg3 []).reg
        (get_or_fetch_local_tails_path wEnv ceReg3 []).fs).result
      = .error .missingPublicLocation := by decide

/-- C3 (amended: restricted to a first call that succeeds — a first call
failing with a missing URI performs no fetch at all, and one failing with a
transport error leaves no file so the second call fetches again): for every
descriptor with no pre-existing file at the resolved path whose first
get_or_fetch_local_tails_path call succeeds, that first call invokes the
transport exactly once and the second call returns the same path with no
transport invocation and no state change; and whenever a file already exists
at the resolved path, get_or_fetch_local_tails_path returns that path
immediately, without any transport invocation and without re-verifying the
file's hash (descriptor and filesystem untouched). -/
theorem get_or_fetch_idempotent_after_success (env : FetchEnv)
    (reg : RevocationRegistry) (fs : FS) (p : String) :
    (fsIsFile fs (get_receiving_tails_local_path env reg) = false →
      (get_or_fetch_local_tails_path env reg fs).result = .ok p →
      (get_or_fetch_local_tails_path env reg fs).fetched.length = 1 ∧
      get_or_fetch_local_tails_path env (get_or_fetch_local_tails_path env reg fs).reg
          (get_or_fetch_local_tails_path env reg fs).fs
        = { result := .ok p
            reg := (get_or_fetch_local_tails_path env reg fs).reg
            fs := (get_or_fetch_local_tails_path env reg fs).fs
            fetched := [] }) ∧
    (fsIsFile fs (get_receiving_tails_local_path env reg) = true →
      get_or_fetch_local_tails_path env reg fs
        = { result := .ok (get_receiving_tails_local_path env reg)
            reg := reg
            fs := fs
            fetched := [] }) := by
  constructor
  · intro hfile hres
    rw [get_or_fetch_file_absent env reg fs hfile] at hres ⊢
    cases htp : strTruthy reg.tails_public_uri with
    | false =>
      rw [retrieve_tails_noUri env reg fs htp] at hres
      simp at hres
    | true =>
      cases huri : reg.tails_public_uri with
      | none => rw [huri] at htp; simp [strTruthy] at htp
      | some u =>
        have hu : u ≠ "" := by
          rw [huri] at htp; simpa [strTruthy] using htp
        cases htr : env.transport u with
        | none =>
          rw [retrieve_tails_fetchFailure env reg fs u huri hu htr] at hres
          simp at hres
        | some chunks =>
          by_cases hh : reg.tails_hash = some (env.hashFn (streamContents chunks))
          · have heq := retrieve_tails_success_eq env reg fs u chunks huri hu htr hh
            rw [heq] at hres ⊢
            have hp : get_receiving_tails_local_path env reg = p := by
              simpa using hres
            refine ⟨rfl, ?_⟩
            have hstable := receiving_path_update_stable env reg
            have hfile2 : fsIsFile
                (fsSet fs (get_receiving_tails_local_path env reg) (streamContents chunks))
                (get_receiving_tails_local_path env
                  { reg with
                    tails_local_path := some (get_receiving_tails_local_path env reg) })
                = true := by
              rw [hstable]
              exact fsIsFile_fsSet_self _ _ _
            have h2 := get_or_fetch_file_present env
              { reg with tails_local_path := some (get_receiving_tails_local_path env reg) }
              (fsSet fs (get_receiving_tails_local_path env reg) (streamContents chunks))
              hfile2
            show get_or_fetch_local_tails_path env
                { reg with tails_local_path := some (get_receiving_tails_local_path env reg) }
                (fsSet fs (get_receiving_tails_local_path env reg) (streamContents chunks))
              = { result := .ok p
                  reg := { reg with
                    tails_local_path := some (get_receiving_tails_local_path env reg) }
                  fs := fsSet fs (get_receiving_tails_local_path env reg)
                    (streamContents chunks)
                  fetched := [] }
            rw [h2, hstable, hp]
          · have heq := retrieve_tails_mismatch_eq env reg fs u chunks huri hu htr hh
            rw [heq] at hres
            simp at hres
  · intro hfile
    exact get_or_fetch_file_present env reg fs hfile

/-- Witness for C3: fetching the concrete good descriptor with an empty
filesystem invokes the transport once, and the repeat call is a pure cache
hit. -/
theorem get_or_fetch_idempotent_after_success_witness :
    (get_or_fetch_local_tails_path wEnv wRegGood []).fetched.length = 1 ∧
    get_or_fetch_local_tails_path wEnv (get_or_fetch_local_tails_path wEnv wRegGood []).reg
        (get_or_fetch_local_tails_path wEnv wRegGood []).fs
      = { result := .ok "/cache/GOODHASH"
          reg := (get_or_fetch_local_tails_path wEnv wRegGood []).reg
          fs := (get_or_fetch_local_tails_path wEnv wRegGood []).fs
          fetched := [] } :=
  (get_or_fetch_idempotent_after_success wEnv wRegGood [] "/cache/GOODHASH").1
    (by decide) (by decide)
